import Mathlib

/-!
Verification development for the blazedb-service gateway/orchestration core.

Shallow embedding of the Rust sources:
  src/server/ports.rs, src/server/crypto.rs, src/server/storage.rs,
  src/server/container.rs, src/server/service.rs, src/bin/proxy.rs,
  src/bin/main.rs.

Modelling conventions:
  - Rust `String`/`&str` values are modelled as Lean `String` (or `List Char`
    where character-level processing is involved; a Lean `String` is a list
    of unicode scalar values, matching Rust's `chars()` view).
  - Byte buffers are `List Nat` with every element `< 256`.
  - Machine integers use `Nat` with explicit `% 2^w` where wrapping matters
    (`u16` arithmetic in `calculate_container_port`).
  - Fallible operations return `Option`/`Except`.
  - External library primitives that the claims treat as opaque (SHA-256 in
    `hash_api_key`, PBKDF2 in `get_unique_instance_id`) are taken as function
    parameters; library primitives whose behaviour the claims depend on
    (url-safe base64, hex, UTF-8 encoding/decoding, `char::is_whitespace`)
    are defined here executably.
-/

namespace Blaze

/-! ## Generic list/string helpers -/

/-- Association-list lookup (model of `HashMap::get` / key equality lookup). -/
def assocLookup {K V : Type} [DecidableEq K] (k : K) : List (K × V) → Option V
  | [] => none
  | (k', v) :: rest => if k' = k then some v else assocLookup k rest

/-- Association-list insert-or-replace (model of `HashMap::insert`).
Returns the previous value and the updated map. -/
def assocInsert {K V : Type} [DecidableEq K] (k : K) (v : V) (m : List (K × V)) :
    Option V × List (K × V) :=
  (assocLookup k m, (k, v) :: m.filter (fun p => p.1 ≠ k))

/-- Association-list removal (model of `HashMap::remove`). -/
def assocRemove {K V : Type} [DecidableEq K] (k : K) (m : List (K × V)) : List (K × V) :=
  m.filter (fun p => p.1 ≠ k)

/-- Model of Rust `str::split(sep)` over the character list: splits at every
occurrence of `sep`, keeping empty fragments, and yields at least one fragment. -/
def splitChar (sep : Char) : List Char → List (List Char)
  | [] => [[]]
  | c :: rest =>
    if c = sep then
      [] :: splitChar sep rest
    else
      match splitChar sep rest with
      | [] => [[c]]
      | p :: ps => (c :: p) :: ps

/-! ## src/server/ports.rs -/

/-- `calculate_container_port` (ports.rs:10-17).
Rust folds with `u16::wrapping_add` over `c as u16` (the scalar value
truncated to 16 bits) of the first 8 characters, then maps into
`50000 + hash % 10000`.  `u16` wrapping is modelled by `% 65536`. -/
def calculate_container_port (instance_id : String) : Nat :=
  let hash := (instance_id.data.take 8).foldl
    (fun acc c => (acc + c.toNat % 65536) % 65536) 0
  50000 + hash % 10000

/-! ## url-safe base64 without padding (the `base64` crate's
`URL_SAFE_NO_PAD` engine used by crypto.rs) -/

/-- Value-to-character map of the url-safe base64 alphabet
(A-Z, a-z, 0-9, then 62 ↦ `-` and 63 ↦ `_`). -/
def b64Alph (n : Nat) : Char :=
  if n < 26 then Char.ofNat ('A'.toNat + n)
  else if n < 52 then Char.ofNat ('a'.toNat + (n - 26))
  else if n < 62 then Char.ofNat ('0'.toNat + (n - 52))
  else if n = 62 then '-'
  else '_'

/-- Character-to-value map of the url-safe base64 alphabet. -/
def b64Idx (c : Char) : Option Nat :=
  if 'A' ≤ c ∧ c ≤ 'Z' then some (c.toNat - 'A'.toNat)
  else if 'a' ≤ c ∧ c ≤ 'z' then some (c.toNat - 'a'.toNat + 26)
  else if '0' ≤ c ∧ c ≤ '9' then some (c.toNat - '0'.toNat + 52)
  else if c = '-' then some 62
  else if c = '_' then some 63
  else none

/-- Unpadded base64 encoding: 3-byte groups become 4 symbols; a trailing
1-byte (resp. 2-byte) group becomes 2 (resp. 3) symbols with zero fill bits. -/
def b64EncodeBytes : List Nat → List Char
  | [] => []
  | [b0] => [b64Alph (b0 / 4), b64Alph (b0 % 4 * 16)]
  | [b0, b1] => [b64Alph (b0 / 4), b64Alph (b0 % 4 * 16 + b1 / 16), b64Alph (b1 % 16 * 4)]
  | b0 :: b1 :: b2 :: rest =>
    b64Alph (b0 / 4) :: b64Alph (b0 % 4 * 16 + b1 / 16) ::
    b64Alph (b1 % 16 * 4 + b2 / 64) :: b64Alph (b2 % 64) :: b64EncodeBytes rest

/-- Unpadded base64 decoding.  Rejects symbols outside the alphabet, a
length of 1 mod 4, and (as the crate's default engine does) non-zero
trailing fill bits in a final partial group. -/
def b64DecodeChars : List Char → Option (List Nat)
  | [] => some []
  | [_] => none
  | [c0, c1] => do
    let i0 ← b64Idx c0
    let i1 ← b64Idx c1
    if i1 % 16 = 0 then some [i0 * 4 + i1 / 16] else none
  | [c0, c1, c2] => do
    let i0 ← b64Idx c0
    let i1 ← b64Idx c1
    let i2 ← b64Idx c2
    if i2 % 4 = 0 then some [i0 * 4 + i1 / 16, i1 % 16 * 16 + i2 / 4] else none
  | c0 :: c1 :: c2 :: c3 :: rest => do
    let i0 ← b64Idx c0
    let i1 ← b64Idx c1
    let i2 ← b64Idx c2
    let i3 ← b64Idx c3
    let tail ← b64DecodeChars rest
    some ([i0 * 4 + i1 / 16, i1 % 16 * 16 + i2 / 4, i2 % 4 * 64 + i3] ++ tail)

/-- Induction principle following the 3-byte grouping of base64. -/
def chunk3Induction {P : List Nat → Prop} (h0 : P []) (h1 : ∀ a, P [a])
    (h2 : ∀ a b, P [a, b]) (h3 : ∀ a b c rest, P rest → P (a :: b :: c :: rest)) :
    ∀ l, P l
  | [] => h0
  | [a] => h1 a
  | [a, b] => h2 a b
  | a :: b :: c :: rest => h3 a b c rest (chunk3Induction h0 h1 h2 h3 rest)

/-! ## hex encoding (the `hex` crate's `encode`) -/

/-- Hex digit for a nibble value. -/
def hexDigitChar (n : Nat) : Char :=
  if n < 10 then Char.ofNat ('0'.toNat + n) else Char.ofNat ('a'.toNat + (n - 10))

/-- `hex::encode`: each byte becomes its high then low nibble digit. -/
def hexEncodeBytes (bs : List Nat) : List Char :=
  bs.flatMap (fun b => [hexDigitChar (b / 16 % 16), hexDigitChar (b % 16)])

/-! ## UTF-8 (Rust `str::as_bytes` / `String::from_utf8`) -/

/-- UTF-8 encoding of one unicode scalar value (`str::as_bytes` view of a char). -/
def utf8EncodeChar (c : Char) : List Nat :=
  if c.toNat < 0x80 then [c.toNat]
  else if c.toNat < 0x800 then
    [0xC0 + c.toNat / 64, 0x80 + c.toNat % 64]
  else if c.toNat < 0x10000 then
    [0xE0 + c.toNat / 4096, 0x80 + c.toNat / 64 % 64, 0x80 + c.toNat % 64]
  else
    [0xF0 + c.toNat / 262144, 0x80 + c.toNat / 4096 % 64,
      0x80 + c.toNat / 64 % 64, 0x80 + c.toNat % 64]

/-- The byte sequence of a Rust `String` (`as_bytes`). -/
def utf8Encode (cs : List Char) : List Nat := cs.flatMap utf8EncodeChar

/-- Validity condition for a 2-byte UTF-8 sequence (no overlong forms). -/
abbrev utf8Cond2 (b0 b1 : Nat) : Prop := 0xC2 ≤ b0 ∧ 0x80 ≤ b1 ∧ b1 < 0xC0

/-- Code point of a 2-byte UTF-8 sequence. -/
def utf8Val2 (b0 b1 : Nat) : Nat := (b0 - 0xC0) * 64 + (b1 - 0x80)

/-- Code point of a 3-byte UTF-8 sequence. -/
def utf8Val3 (b0 b1 b2 : Nat) : Nat := (b0 - 0xE0) * 4096 + (b1 - 0x80) * 64 + (b2 - 0x80)

/-- Validity condition for a 3-byte UTF-8 sequence (no overlong forms, no
surrogate code points). -/
abbrev utf8Cond3 (b0 b1 b2 : Nat) : Prop :=
  0x80 ≤ b1 ∧ b1 < 0xC0 ∧ 0x80 ≤ b2 ∧ b2 < 0xC0 ∧ 0x800 ≤ utf8Val3 b0 b1 b2 ∧
    ¬(0xD800 ≤ utf8Val3 b0 b1 b2 ∧ utf8Val3 b0 b1 b2 ≤ 0xDFFF)

/-- Code point of a 4-byte UTF-8 sequence. -/
def utf8Val4 (b0 b1 b2 b3 : Nat) : Nat :=
  (b0 - 0xF0) * 262144 + (b1 - 0x80) * 4096 + (b2 - 0x80) * 64 + (b3 - 0x80)

/-- Validity condition for a 4-byte UTF-8 sequence (no overlong forms, code
point in range). -/
abbrev utf8Cond4 (b0 b1 b2 b3 : Nat) : Prop :=
  0x80 ≤ b1 ∧ b1 < 0xC0 ∧ 0x80 ≤ b2 ∧ b2 < 0xC0 ∧ 0x80 ≤ b3 ∧ b3 < 0xC0 ∧
    0x10000 ≤ utf8Val4 b0 b1 b2 b3 ∧ utf8Val4 b0 b1 b2 b3 < 0x110000

/-- Strict UTF-8 decoding (`String::from_utf8`): rejects invalid lead bytes,
missing/invalid continuation bytes, overlong forms, surrogate code points and
out-of-range code points.  Stated by input shape so that each lead byte can
consume the continuation bytes it requires. -/
def utf8DecodeBytes : List Nat → Option (List Char)
  | [] => some []
  | [b0] =>
    if b0 < 0x80 then some [Char.ofNat b0] else none
  | [b0, b1] =>
    if b0 < 0x80 then (utf8DecodeBytes [b1]).map (fun cs => Char.ofNat b0 :: cs)
    else if b0 < 0xE0 then
      if utf8Cond2 b0 b1 then some [Char.ofNat (utf8Val2 b0 b1)] else none
    else none
  | [b0, b1, b2] =>
    if b0 < 0x80 then (utf8DecodeBytes [b1, b2]).map (fun cs => Char.ofNat b0 :: cs)
    else if b0 < 0xE0 then
      if utf8Cond2 b0 b1 then (utf8DecodeBytes [b2]).map (fun cs => Char.ofNat (utf8Val2 b0 b1) :: cs)
      else none
    else if b0 < 0xF0 then
      if utf8Cond3 b0 b1 b2 then some [Char.ofNat (utf8Val3 b0 b1 b2)] else none
    else none
  | b0 :: b1 :: b2 :: b3 :: rest =>
    if b0 < 0x80 then
      (utf8DecodeBytes (b1 :: b2 :: b3 :: rest)).map (fun cs => Char.ofNat b0 :: cs)
    else if b0 < 0xE0 then
      if utf8Cond2 b0 b1 then
        (utf8DecodeBytes (b2 :: b3 :: rest)).map (fun cs => Char.ofNat (utf8Val2 b0 b1) :: cs)
      else none
    else if b0 < 0xF0 then
      if utf8Cond3 b0 b1 b2 then
        (utf8DecodeBytes (b3 :: rest)).map (fun cs => Char.ofNat (utf8Val3 b0 b1 b2) :: cs)
      else none
    else if b0 < 0xF8 then
      if utf8Cond4 b0 b1 b2 b3 then
        (utf8DecodeBytes rest).map (fun cs => Char.ofNat (utf8Val4 b0 b1 b2 b3) :: cs)
      else none
    else none

/-! ## src/server/crypto.rs -/

/-- `generate_api_key` (crypto.rs:88-98).
Format: `blz_{base64_email}_{random_secret}` with url-safe unpadded base64 of
the email's UTF-8 bytes and the hex encoding of 32 random bytes.  The random
secret (`generate_salt(32)`) is passed in explicitly; `_user_name` is ignored
exactly as in the source. -/
def generate_api_key (_user_name : String) (user_email : String) (secret : List Nat) : String :=
  String.mk ("blz".data ++
    ('_' :: (b64EncodeBytes (utf8Encode user_email.data) ++
      ('_' :: hexEncodeBytes secret))))

/-- `extract_email_from_api_key` (crypto.rs:102-113).
Splits on `_`, requires exactly 3 parts with first part `blz`, then decodes
part 1 as url-safe base64 and interprets the bytes as UTF-8
(`String::from_utf8`). -/
def extract_email_from_api_key (api_key : String) : Option String :=
  let parts := splitChar '_' api_key.data
  if parts.length = 3 ∧ parts.getD 0 [] = "blz".data then
    (b64DecodeChars (parts.getD 1 [])).bind (fun bytes =>
      (utf8DecodeBytes bytes).map String.mk)
  else none

/-! ## src/server/storage.rs

`DataStore<K, V>` is an in-memory `HashMap` plus a JSON backing file.  The
map is modelled as an association list, the backing file as
`Option (List (K × V))` (`none` = file absent); `serde_json` serialization
of the whole map is modelled as the map itself, since `to_writer_pretty`
followed by `from_slice` round-trips.  Lock poisoning and I/O failure have
no counterpart in the pure model, so the `Result` wrappers of the source
always succeed here. -/

structure DataStore (K V : Type) where
  data : List (K × V)
  file : Option (List (K × V))
deriving DecidableEq

/-- `DataStore::new` (storage.rs:46-56): start from an empty map, then load
the backing file if it exists. -/
def DataStore.new {K V : Type} (file : Option (List (K × V))) : DataStore K V :=
  { data := file.getD [], file := file }

/-- `DataStore::save_to_disk` (storage.rs:177-203): truncate-and-rewrite the
whole serialized map. -/
def DataStore.save_to_disk {K V : Type} (s : DataStore K V) : DataStore K V :=
  { s with file := some s.data }

/-- `DataStore::insert` (storage.rs:59-72): mutate the map under the write
lock, release, then persist; returns the previous value. -/
def DataStore.insert {K V : Type} [DecidableEq K] (s : DataStore K V) (key : K) (value : V) :
    Option V × DataStore K V :=
  let old_value := assocLookup key s.data
  let s' : DataStore K V := { s with data := (assocInsert key value s.data).2 }
  (old_value, s'.save_to_disk)

/-- `DataStore::get` (storage.rs:75-82): clone of the map entry under the
read lock. -/
def DataStore.get {K V : Type} [DecidableEq K] (s : DataStore K V) (key : K) : Option V :=
  assocLookup key s.data

/-- Modelled from the spec: `insert_mem` is called by service.rs but is
missing from the storage.rs snapshot under src/.  Per §4.1 it is the
memory-only insert that "skips the rewrite and relies on a periodic
background flush". -/
def DataStore.insert_mem {K V : Type} [DecidableEq K] (s : DataStore K V) (key : K) (value : V) :
    DataStore K V :=
  { s with data := (assocInsert key value s.data).2 }

/-- `DataStore::reload` (storage.rs:227-233): re-read the backing file
wholesale if it exists, otherwise keep the in-memory state. -/
def DataStore.reload {K V : Type} (s : DataStore K V) : DataStore K V :=
  match s.file with
  | some m => { s with data := m }
  | none => s

/-! ## src/server/schema.rs

The `schema.rs` snapshot under src/ is stale (it names the instance field
`instance_url` and omits it from `VerifyOtpResponse`); the actual users of
the struct — proxy.rs and service.rs — consistently read and write
`user.instance_id`, which this model follows. -/

structure Feature where
  database_no : Nat
  vector_per_db : Nat
  demo_datasets_included : Bool
  dedicated_server_instance : Bool
  embedding_api_access : Bool
deriving DecidableEq

structure Plans where
  name : String
  price_per_month : Nat
  features : Feature
deriving DecidableEq

/-- `Plans::free_plan` (schema.rs:112-124). -/
def Plans.free_plan : Plans where
  name := "Free"
  price_per_month := 0
  features :=
    { database_no := 1
      vector_per_db := 10000
      demo_datasets_included := true
      dedicated_server_instance := false
      embedding_api_access := false }

/-- `APIKey` (crypto.rs:7-15).  `key_pref` is the source's short non-secret
display field; timestamps are opaque strings. -/
structure APIKey where
  user_name : String
  user_email : String
  api_key_hash : String
  key_pref : String
  is_revoked : Bool
  created_at : String
deriving DecidableEq

/-- `User` (schema.rs:58-67, with the field set used by proxy.rs/service.rs). -/
structure User where
  username : String
  email : String
  api_key : List APIKey
  is_verified : Bool
  plans : Plans
  instance_id : String
  created_at : String
deriving DecidableEq

/-- `CachedUser` (proxy.rs:32-40): the read-mostly projection held in the
LRU cache. -/
structure CachedUser where
  email : String
  username : String
  instance_id : String
  is_verified : Bool
deriving DecidableEq

/-! ## src/server/container.rs -/

/-- The Unicode White_Space property, as used by Rust
`char::is_whitespace` / `str::split_whitespace` / `str::trim`. -/
def rust_char_is_whitespace (c : Char) : Bool :=
  let n := c.toNat
  n = 0x20 || n = 0x09 || n = 0x0A || n = 0x0B || n = 0x0C || n = 0x0D ||
  n = 0x85 || n = 0xA0 || n = 0x1680 || (0x2000 ≤ n && n ≤ 0x200A) ||
  n = 0x2028 || n = 0x2029 || n = 0x202F || n = 0x205F || n = 0x3000

/-- ASCII lowercasing of one character (header names are ASCII; the `http`
crate normalizes them this way). -/
def ascii_lower_char (c : Char) : Char :=
  if 'A' ≤ c ∧ c ≤ 'Z' then Char.ofNat (c.toNat + 32) else c

/-- ASCII lowercasing of a string. -/
def str_lower (s : String) : String := String.mk (s.data.map ascii_lower_char)

/-- Rust `str::starts_with`. -/
def str_starts_with (s pre : String) : Bool := pre.data.isPrefixOf s.data

/-- Rust `str::trim`: strip leading and trailing Unicode whitespace. -/
def rust_str_trim (s : String) : String :=
  String.mk (((s.data.dropWhile rust_char_is_whitespace).reverse.dropWhile
    rust_char_is_whitespace).reverse)

/-- Rust `String::to_lowercase`, restricted to its ASCII action (no claim
depends on non-ASCII case mappings). -/
def rust_to_lowercase (s : String) : String := String.mk (s.data.map ascii_lower_char)

/-- `get_unique_instance_id` (container.rs:38-52): hex-encoded
PBKDF2-HMAC-SHA512 (100 000 iterations, process-wide secret) of the trimmed,
lowercased email.  The key-stretching primitive with its fixed secret is an
opaque deterministic function parameter `kdf`. -/
def get_unique_instance_id (kdf : String → String) (email : String) : String :=
  kdf (rust_to_lowercase (rust_str_trim email))

/-- `bollard::models::RestartPolicyNameEnum` (the variants used by the
runtime API). -/
inductive RestartPolicyName where
  | empty
  | no
  | always
  | unlessStopped
  | onFailure
deriving DecidableEq

/-- One volume mount of the container configuration. -/
structure MountSpec where
  target : String
  source : String
deriving DecidableEq

/-- One host port binding. -/
structure PortBindingSpec where
  host_ip : String
  host_port : Nat
deriving DecidableEq

/-- The parts of `bollard::models::HostConfig` set by container.rs. -/
structure HostConfigSpec where
  mounts : List MountSpec
  network_mode : String
  port_bindings : Option (List (String × PortBindingSpec))
  restart_policy : Option RestartPolicyName
deriving DecidableEq

/-- The parts of `ContainerCreateBody` set by container.rs. -/
structure ContainerCreateBodySpec where
  image : String
  env : List String
  host_config : HostConfigSpec
deriving DecidableEq

/-- The `ContainerCreateBody` built by `spawn_blazedb_container`
(container.rs:111-147) when the container does not already exist. -/
def blazedb_container_config (instance_id : String) (network_mode : String) :
    ContainerCreateBodySpec where
  image := "ronakgh97/blazedb:latest"
  env := ["RUST_LOG=info", "PORT=8080",
    "EMBEDDING_MODEL=text-embedding-qwen3-embedding-0.6b",
    "EMBEDDING_API_URL=http://host.docker.internal:1234/v1/embeddings",
    "EMBEDDING_API_KEY=local_dev_key"]
  host_config :=
    { mounts := [
        { target := "/home/blazedb/.config/blaze", source := "blazedb_config_" ++ instance_id },
        { target := "/home/blazedb/blaze", source := "blazedb_sources_" ++ instance_id }]
      network_mode := network_mode
      port_bindings :=
        if network_mode = "bridge" then
          some [("8080/tcp",
            { host_ip := "127.0.0.1", host_port := calculate_container_port instance_id })]
        else none
      restart_policy := some RestartPolicyName.unlessStopped }

/-- What `spawn_blazedb_container` does after ensuring both volumes exist and
pulling the image: start the existing container, or create (submitting a
configuration) and start a new one. -/
inductive SpawnAction where
  | startExisting
  | createAndStart (config : ContainerCreateBodySpec)
deriving DecidableEq

/-- The container-runtime effects of `spawn_blazedb_container`
(container.rs:56-162): the two volume names ensured to exist, and the
container action taken.  `container_exists` is the runtime's answer to the
existence query; `network_mode` is the `BLAZEDB_NETWORK` environment value
(default `bridge`). -/
def spawn_blazedb_container (container_exists : Bool) (network_mode : String)
    (instance_id : String) : List String × SpawnAction :=
  (["blazedb_config_" ++ instance_id, "blazedb_sources_" ++ instance_id],
    if container_exists then SpawnAction.startExisting
    else SpawnAction.createAndStart (blazedb_container_config instance_id network_mode))

/-! ## src/bin/proxy.rs -/

/-- `ProxyError` (proxy.rs:332-346). -/
inductive ProxyError where
  | MissingApiKey
  | InvalidApiKey
  | InvalidPath
  | Forbidden
  | BlockedEndpoint
  | DatastoreNotFound
  | DatastoreError
  | InstanceUnavailable
  | InstanceError
  | UnsupportedMethod
  | InternalError
deriving DecidableEq

/-- Equality on `Except` results is decidable (needed to evaluate the model
on concrete inputs). -/
instance {ε α : Type} [DecidableEq ε] [DecidableEq α] : DecidableEq (Except ε α) := fun a b =>
  match a, b with
  | Except.error e1, Except.error e2 => decidable_of_iff (e1 = e2) (by simp)
  | Except.ok v1, Except.ok v2 => decidable_of_iff (v1 = v2) (by simp)
  | Except.error _, Except.ok _ => isFalse (by simp)
  | Except.ok _, Except.error _ => isFalse (by simp)

/-- HTTP methods as matched by `forward_request`; everything not in the
GET/POST/PUT/DELETE arms is collapsed into `other`. -/
inductive Method where
  | GET
  | POST
  | PUT
  | DELETE
  | other
deriving DecidableEq

/-- `http::HeaderMap` is modelled as a name/value list; the name comparison
of `get`/`remove` is case-insensitive, as in the `http` crate (which stores
normalized lowercase names).  Values are modelled as `String` (the
`HeaderValue::to_str` visible-ASCII check always succeeds on this model). -/
def hm_get (headers : List (String × String)) (name : String) : Option String :=
  (headers.find? (fun p => str_lower p.1 = str_lower name)).map Prod.snd

/-- `HeaderMap::remove`: removes every value stored under the
(case-insensitively compared) name. -/
def hm_remove (headers : List (String × String)) (name : String) : List (String × String) :=
  headers.filter (fun p => str_lower p.1 ≠ str_lower name)

/-- Split on a character predicate, keeping empty fragments. -/
def splitByP (p : Char → Bool) : List Char → List (List Char)
  | [] => [[]]
  | c :: rest =>
    if p c then
      [] :: splitByP p rest
    else
      match splitByP p rest with
      | [] => [[c]]
      | q :: qs => (c :: q) :: qs

/-- Rust `str::split_whitespace`: fragments between whitespace runs, with
empty fragments dropped. -/
def rust_split_whitespace (s : String) : List String :=
  ((splitByP rust_char_is_whitespace s.data).filter (fun l => ¬ l.isEmpty)).map String.mk

/-- `extract_api_key` (proxy.rs:236-259). -/
def extract_api_key (headers : List (String × String)) : Except ProxyError String :=
  match hm_get headers "Authorization" with
  | none => Except.error ProxyError.MissingApiKey
  | some auth_str =>
    let api_key :=
      if str_starts_with auth_str "Bearer " then (rust_split_whitespace auth_str).get? 1
      else some auth_str
    match api_key with
    | none => Except.error ProxyError.InvalidApiKey
    | some k =>
      if str_starts_with k "blz_" then Except.ok k else Except.error ProxyError.InvalidApiKey

/-- The `lru` crate's `LruCache` with capacity 1024 (proxy.rs:56), keyed by
the credential hash.  Entries are kept most-recently-used first. -/
structure LruCacheM where
  entries : List (String × CachedUser)
deriving DecidableEq

/-- `LruCache::get`: on a hit, promote the entry to most-recently-used and
return it; a miss leaves the cache unchanged. -/
def lru_get (cache : LruCacheM) (k : String) : Option CachedUser × LruCacheM :=
  match cache.entries.find? (fun p => p.1 = k) with
  | none => (none, cache)
  | some p => (some p.2, ⟨p :: cache.entries.filter (fun q => q.1 ≠ k)⟩)

/-- `LruCache::put`: insert/update as most-recently-used, evicting the
least-recently-used entry when the capacity of 1024 is exceeded. -/
def lru_put (cache : LruCacheM) (k : String) (v : CachedUser) : LruCacheM :=
  ⟨((k, v) :: cache.entries.filter (fun q => q.1 ≠ k)).take 1024⟩

/-- `AppState` (proxy.rs:23-30): the LRU cache plus the user store. -/
structure ProxyState where
  user_cache : LruCacheM
  user_store : DataStore String User
deriving DecidableEq

/-- `load_and_verify` (proxy.rs:288-314): look the tenant up by the e-mail
embedded in the credential and accept iff some non-revoked stored credential
hash equals the presented hash.  (The store's `Result` never fails in the
pure model, so the `DatastoreNotFound` branch is unreachable.) -/
def load_and_verify (user_store : DataStore String User) (api_key_hash : String)
    (email : String) : Except ProxyError CachedUser :=
  match user_store.get email with
  | none => Except.error ProxyError.InvalidApiKey
  | some user =>
    let key_valid := user.api_key.any (fun k => !k.is_revoked && k.api_key_hash == api_key_hash)
    if key_valid then
      Except.ok { email := user.email, username := user.username, instance_id := user.instance_id, is_verified := user.is_verified }
    else Except.error ProxyError.InvalidApiKey

/-- `verify_api_key` (proxy.rs:261-285): LRU hit returns the cached identity
without touching the store; a miss goes through `load_and_verify` and, on
success, caches the result. -/
def verify_api_key (st : ProxyState) (api_key_hash : String) (email : String) :
    Except ProxyError CachedUser × ProxyState :=
  match lru_get st.user_cache api_key_hash with
  | (some cached, cache') => (Except.ok cached, { st with user_cache := cache' })
  | (none, _) =>
    match load_and_verify st.user_store api_key_hash email with
    | Except.error e => (Except.error e, st)
    | Except.ok cached_user =>
      (Except.ok cached_user,
        { st with user_cache := lru_put st.user_cache api_key_hash cached_user })

/-- The outbound request assembled by `forward_request` (proxy.rs:184-208):
what is handed to `reqwest` for sending.  `body = none` models the builder
without a body (set only when the inbound body is non-empty). -/
structure OutboundRequest where
  url : String
  method : Method
  headers : List (String × String)
  body : Option (List Nat)
deriving DecidableEq

/-- `forward_request` (proxy.rs:184-234), up to the `send`: strip the
authorization header (both spellings in the source; the map's removal is
case-insensitive either way), reject unsupported methods, pass the remaining
headers and the body through.  The send itself and the response relay are
network I/O outside this model. -/
def forward_request (target_url : String) (method : Method)
    (headers : List (String × String)) (body : List Nat) :
    Except ProxyError OutboundRequest :=
  let headers := hm_remove headers "Authorization"
  let headers := hm_remove headers "authorization"
  match method with
  | Method.other => Except.error ProxyError.UnsupportedMethod
  | m =>
    Except.ok { url := target_url, method := m, headers := headers, body := if body.isEmpty then none else some body }

/-- `needle` occurs as a contiguous substring of `hay`
(Rust `str::contains`). -/
def list_is_substring (needle : List Char) : List Char → Bool
  | [] => needle.isEmpty
  | c :: rest => needle.isPrefixOf (c :: rest) || list_is_substring needle rest

def path_contains (path sub : String) : Bool :=
  list_is_substring sub.data path.data

/-- Instance-id extraction (proxy.rs:118-124):
`path.trim_end_matches('/').split('/').last()`. -/
def extract_instance_id (path : String) : Option String :=
  ((splitChar '/' ((path.data.reverse.dropWhile (fun c => c = '/')).reverse)).getLast?).map
    String.mk

/-- Stripping the instance id from the path (proxy.rs:158):
`path.rsplitn(2, '/').nth(1).unwrap_or("/v1/blazedb")`. -/
def strip_last_segment (path : String) : String :=
  if path.data.contains '/' then
    String.mk (((path.data.reverse.dropWhile (fun c => c ≠ '/')).drop 1).reverse)
  else "/v1/blazedb"

/-- Target base URL (proxy.rs:160-172): host port mapping when
`PROXY_MODE=external`, container-network DNS name otherwise. -/
def container_url (proxy_mode_external : Bool) (instance_id stripped : String) : String :=
  if proxy_mode_external then
    "http://localhost:" ++ toString (calculate_container_port instance_id) ++ stripped
  else
    "http://blazedb-" ++ instance_id ++ ":8080" ++ stripped

/-- An inbound request as seen by `proxy_handler`. -/
structure Request where
  path : String
  headers : List (String × String)
  method : Method
  body : List Nat

/-- The authentication prefix of `proxy_handler` (proxy.rs:110-143): blocked
endpoints, instance-id extraction, credential extraction, identity-key
extraction, hashing, `verify_api_key`.  `hash_api_key` (SHA-256 hex,
crypto.rs:123-127) is an opaque function parameter. -/
def proxy_auth (hash_api_key : String → String) (st : ProxyState) (req : Request) :
    Except ProxyError (CachedUser × String) × ProxyState :=
  if path_contains req.path "/v1/blazedb/embed" || path_contains req.path "/v1/blazedb/query" then
    (Except.error ProxyError.BlockedEndpoint, st)
  else
    match extract_instance_id req.path with
    | none => (Except.error ProxyError.InvalidPath, st)
    | some instance_id =>
      match extract_api_key req.headers with
      | Except.error e => (Except.error e, st)
      | Except.ok api_key =>
        match extract_email_from_api_key api_key with
        | none => (Except.error ProxyError.InvalidApiKey, st)
        | some email =>
          match verify_api_key st (hash_api_key api_key) email with
          | (Except.error e, st') => (Except.error e, st')
          | (Except.ok user, st') => (Except.ok (user, instance_id), st')

/-- `proxy_handler` (proxy.rs:103-182): authentication prefix, then the
instance-id authorization check, then target-URL construction and
forwarding.  The result is the outbound request submitted upstream (or the
error response), plus the updated cache state. -/

def proxy_handler (hash_api_key : String → String) (proxy_mode_external : Bool)
    (st : ProxyState) (req : Request) : Except ProxyError OutboundRequest × ProxyState :=
  match proxy_auth hash_api_key st req with
  | (Except.error e, st') => (Except.error e, st')
  | (Except.ok (user, instance_id), st') =>
    if user.instance_id ≠ instance_id then
      (Except.error ProxyError.Forbidden, st')
    else
      let url := container_url proxy_mode_external instance_id (strip_last_segment req.path)
      (forward_request url req.method req.headers req.body, st')

/-! ## src/server/service.rs + src/bin/main.rs: the registration /
verification state machine (the operations that create and mutate tenant
records).

Time is abstracted to `Nat` timestamps carried by the operations; the random
OTP and the randomly generated credential are operation parameters.  The OTP
hash (`hash_otp`, SHA-256) and the instance-id derivation primitive (`kdf`,
see `get_unique_instance_id`) are opaque function parameters. -/

/-- `OtpRecord` (schema.rs:49-55) with RFC-3339 timestamps abstracted to
`Nat` (only ordering is ever used). -/
structure OtpRec where
  otp_hash : String
  expires_at : Nat
deriving DecidableEq

/-- The service's global state: the user store (`USER_STORE`), the OTP cache
(`OTP_CACHE`) and the rate-limit map (`OTP_RATE_LIMIT`). -/
structure ServiceState where
  users : DataStore String User
  otps : List (String × OtpRec)
  rate : List (String × Nat)
deriving DecidableEq

/-- `is_empty_field` (main.rs:320-322). -/
def is_empty_field (field : String) : Bool := (rust_str_trim field).data.isEmpty

/-- The service endpoints that touch tenant records, plus the background
housekeeping tasks.  `requestOtp` carries the generated OTP, the current
time and whether the e-mail send succeeded; `verifyOtp` carries the
submitted OTP, the current time and the data of the freshly generated
credential. -/
inductive ServiceOp where
  | register (username email : String)
  | requestOtp (email otp : String) (now : Nat) (email_sent : Bool)
  | verifyOtp (email otp : String) (now : Nat) (key_hash key_pref key_ts : String)
  | cleanup (now : Nat)
  | periodicSave
deriving DecidableEq

/-- `save_user` (service.rs:87-112): the fresh `User` record.
`String::with_capacity` yields the empty instance id; the creation
timestamp is abstracted to the empty string. -/
def fresh_user (username email : String) : User :=
  { username := username, email := email, api_key := [], is_verified := false, plans := Plans.free_plan, instance_id := "", created_at := "" }

/-- One service operation, at the granularity of the HTTP handlers of
main.rs (which guard the service.rs calls):
- `register` = `auth_register` (main.rs:95-158): empty-field check,
  conflict if the user exists, else `save_user` via `insert_mem`;
- `requestOtp` = `auth_verify_email` (main.rs:161-249) +
  `send_verification_code` (service.rs:298-469): requires an existing,
  unverified user; 30 s rate-limit; stores the hashed OTP expiring in 60 s;
  removes it again if the e-mail fails to send;
- `verifyOtp` = `auth_verify_code` (main.rs:253-286) + `verify_otp`
  (service.rs:153-268): OTP present, unexpired and matching, user present;
  then marks the user verified, assigns the derived instance id, appends the
  new credential, writes back with `insert_mem` and consumes the OTP (the
  container spawn has no state here);
- `cleanup` = `cleanup_expired_otps` (service.rs:473-516);
- `periodicSave` = `periodic_save_users` (service.rs:519-523). -/
def service_step (kdf hash_otp : String → String) (s : ServiceState) :
    ServiceOp → ServiceState
  | ServiceOp.register username email =>
    if is_empty_field username || is_empty_field email then s
    else if (s.users.get email).isSome then s
    else { s with users := s.users.insert_mem email (fresh_user username email) }
  | ServiceOp.requestOtp email otp now email_sent =>
    if is_empty_field email then s
    else
      match s.users.get email with
      | none => s
      | some u =>
        if u.is_verified then s
        else
          let rate_ok := match assocLookup email s.rate with
            | some last => decide (last + 30 ≤ now)
            | none => true
          if rate_ok then
            let s2 : ServiceState :=
              { s with rate := (assocInsert email now s.rate).2,
                       otps := (assocInsert email { otp_hash := hash_otp otp, expires_at := now + 60 } s.otps).2 }
            if email_sent then s2 else { s2 with otps := assocRemove email s2.otps }
          else s
  | ServiceOp.verifyOtp email otp now key_hash key_pref key_ts =>
    if is_empty_field email || is_empty_field otp then s
    else
      match assocLookup email s.otps with
      | none => s
      | some rec =>
        if rec.expires_at < now then { s with otps := assocRemove email s.otps }
        else if hash_otp otp ≠ rec.otp_hash then s
        else
          match s.users.get email with
          | none => { s with otps := assocRemove email s.otps }
          | some u =>
            let u' : User :=
              { u with is_verified := true,
                       instance_id := get_unique_instance_id kdf u.email,
                       api_key := u.api_key ++ [{ user_name := u.username, user_email := u.email, api_key_hash := key_hash, key_pref := key_pref, is_revoked := false, created_at := key_ts }] }
            { s with users := s.users.insert_mem email u', otps := assocRemove email s.otps }
  | ServiceOp.cleanup now =>
    { s with otps := s.otps.filter (fun p => ¬ p.2.expires_at < now),
             rate := s.rate.filter (fun p => now < p.2 + 30) }
  | ServiceOp.periodicSave =>
    { s with users := s.users.save_to_disk }

/-- The state of a fresh deployment: empty store (no backing file yet),
empty caches. -/
def service_init : ServiceState :=
  { users := DataStore.new none, otps := [], rate := [] }

def service_run (kdf hash_otp : String → String) (s : ServiceState)
    (ops : List ServiceOp) : ServiceState :=
  ops.foldl (service_step kdf hash_otp) s

/-- The tenant-record invariant: every stored record's e-mail equals its
key, and its instance id, once non-empty, is the deterministic derivation
from that key. -/
def service_inv (kdf : String → String) (s : ServiceState) : Prop :=
  ∀ p ∈ s.users.data, p.2.email = p.1 ∧
    (p.2.instance_id ≠ "" → p.2.instance_id = get_unique_instance_id kdf p.1)

/-- Concrete data for the proxy witnesses: one tenant whose stored
(non-revoked) credential hash matches the presented credential under the
identity hash function. -/
def api_key_rec_w : APIKey :=
  { user_name := "alice", user_email := "a@b.c", api_key_hash := "blz_YUBiLmM_00", key_pref := "", is_revoked := false, created_at := "" }

def user_w : User :=
  { username := "alice", email := "a@b.c", api_key := [api_key_rec_w], is_verified := true, plans := Plans.free_plan, instance_id := "iidA", created_at := "" }

def cached_w : CachedUser :=
  { email := "a@b.c", username := "alice", instance_id := "iidA", is_verified := true }

def st_w : ProxyState :=
  { user_cache := { entries := [] }, user_store := { data := [("a@b.c", user_w)], file := none } }

def st_w1 : ProxyState :=
  { user_cache := { entries := [("blz_YUBiLmM_00", cached_w)] }, user_store := st_w.user_store }

def req_w : Request :=
  { path := "/v1/blazedb/search/iidB", headers := [("Authorization", "Bearer blz_YUBiLmM_00")], method := Method.GET, body := [] }

/-- Concrete data for the C4 witness: a tenant whose only matching stored
credential is revoked. -/
def user_rev_w : User :=
  { username := "bob", email := "b@b.c", api_key := [{ user_name := "bob", user_email := "b@b.c", api_key_hash := "h2", key_pref := "", is_revoked := true, created_at := "" }], is_verified := true, plans := Plans.free_plan, instance_id := "iidB", created_at := "" }

def st_rev_w : ProxyState :=
  { user_cache := { entries := [] }, user_store := { data := [("b@b.c", user_rev_w)], file := none } }

def out_w : OutboundRequest :=
  { url := "u", method := Method.GET, headers := [("content-type", "json")], body := some [1, 2] }

def ds_w : DataStore String String := DataStore.new none

def ds_w1 : DataStore String String := (ds_w.insert "k" "v").2

def ops_w1 : List ServiceOp :=
  [ServiceOp.register "alice" "a@b",
   ServiceOp.requestOtp "a@b" "1234" 0 true,
   ServiceOp.verifyOtp "a@b" "1234" 10 "kh" "kp" "ts"]

def user_v_w : User :=
  { username := "alice", email := "a@b", api_key := [{ user_name := "alice", user_email := "a@b", api_key_hash := "kh", key_pref := "kp", is_revoked := false, created_at := "ts" }], is_verified := true, plans := Plans.free_plan, instance_id := "a@b", created_at := "" }

/-! ## Theorems -/

theorem splitChar_ne_nil (sep : Char) (l : List Char) : splitChar sep l ≠ [] := by
  induction l with
  | nil => simp [splitChar]
  | cons c rest ih =>
    simp only [splitChar]
    split
    · simp
    · cases h : splitChar sep rest <;> simp

theorem splitChar_no_sep {sep : Char} {a : List Char} (h : sep ∉ a) :
    splitChar sep a = [a] := by
  induction a with
  | nil => rfl
  | cons c rest ih =>
    simp only [List.mem_cons, not_or] at h
    simp only [splitChar]
    rw [if_neg (fun hc : c = sep => h.1 hc.symm)]
    rw [ih h.2]

theorem splitChar_append_sep {sep : Char} {a rest : List Char} (h : sep ∉ a) :
    splitChar sep (a ++ sep :: rest) = a :: splitChar sep rest := by
  induction a with
  | nil => simp [splitChar]
  | cons c tl ih =>
    simp only [List.mem_cons, not_or] at h
    simp only [List.cons_append, splitChar]
    rw [if_neg (fun hc : c = sep => h.1 hc.symm)]
    simp only [List.append_eq]
    rw [ih h.2]

theorem foldl_wrap_eq_sum_mod (l : List Char) (init : Nat) (hinit : init < 65536) :
    l.foldl (fun acc c => (acc + c.toNat % 65536) % 65536) init
      = (init + (l.map (fun c => c.toNat % 65536)).sum) % 65536 := by
  induction l generalizing init with
  | nil => simp [Nat.mod_eq_of_lt hinit]
  | cons c rest ih =>
    simp only [List.foldl_cons, List.map_cons, List.sum_cons]
    rw [ih _ (Nat.mod_lt _ (by omega))]
    conv_rhs => rw [← Nat.add_assoc]
    rw [Nat.mod_add_mod]

theorem b64Idx_b64Alph : ∀ n : Fin 64, b64Idx (b64Alph n.val) = some n.val := by decide

theorem b64Idx_b64Alph_of_lt {n : Nat} (h : n < 64) : b64Idx (b64Alph n) = some n :=
  b64Idx_b64Alph ⟨n, h⟩

theorem b64_roundtrip (bs : List Nat) (hb : ∀ b ∈ bs, b < 256) :
    b64DecodeChars (b64EncodeBytes bs) = some bs := by
  induction bs using chunk3Induction with
  | h0 => rfl
  | h1 a =>
    have ha : a < 256 := hb a (by simp)
    simp only [b64EncodeBytes, b64DecodeChars]
    rw [b64Idx_b64Alph_of_lt (by omega), b64Idx_b64Alph_of_lt (by omega)]
    simp only [Option.bind_eq_bind, Option.some_bind]
    rw [if_pos (by omega)]
    simp only [Option.some.injEq, List.cons.injEq, and_true]
    omega
  | h2 a b =>
    have ha : a < 256 := hb a (by simp)
    have hbb : b < 256 := hb b (by simp)
    simp only [b64EncodeBytes, b64DecodeChars]
    rw [b64Idx_b64Alph_of_lt (by omega), b64Idx_b64Alph_of_lt (by omega),
      b64Idx_b64Alph_of_lt (by omega)]
    simp only [Option.bind_eq_bind, Option.some_bind]
    rw [if_pos (by omega)]
    simp only [Option.some.injEq, List.cons.injEq, and_true]
    omega
  | h3 a b c rest ih =>
    have ha : a < 256 := hb a (by simp)
    have hbb : b < 256 := hb b (by simp)
    have hc : c < 256 := hb c (by simp)
    have hrest : ∀ x ∈ rest, x < 256 := fun x hx => hb x (by simp [hx])
    cases rest with
    | nil =>
      simp only [b64EncodeBytes, b64DecodeChars]
      rw [b64Idx_b64Alph_of_lt (by omega), b64Idx_b64Alph_of_lt (by omega),
        b64Idx_b64Alph_of_lt (by omega), b64Idx_b64Alph_of_lt (by omega)]
      simp only [Option.bind_eq_bind, Option.some_bind, List.append_nil, List.cons_append,
        List.nil_append, Option.some.injEq, List.cons.injEq, and_true]
      omega
    | cons r rs =>
      have henc : b64EncodeBytes (a :: b :: c :: r :: rs)
          = b64Alph (a / 4) :: b64Alph (a % 4 * 16 + b / 16) ::
            b64Alph (b % 16 * 4 + c / 64) :: b64Alph (c % 64) ::
            b64EncodeBytes (r :: rs) := rfl
      rw [henc]
      have hne : b64EncodeBytes (r :: rs) = b64EncodeBytes (r :: rs) := rfl
      -- the encoded tail is nonempty, so the 4+ pattern of the decoder applies
      cases hsh : b64EncodeBytes (r :: rs) with
      | nil =>
        cases rs with
        | nil => simp [b64EncodeBytes] at hsh
        | cons r2 rs2 =>
          cases rs2 <;> simp [b64EncodeBytes] at hsh
      | cons e es =>
        simp only [b64DecodeChars]
        rw [b64Idx_b64Alph_of_lt (by omega), b64Idx_b64Alph_of_lt (by omega),
          b64Idx_b64Alph_of_lt (by omega), b64Idx_b64Alph_of_lt (by omega)]
        rw [← hsh, ih hrest]
        simp only [Option.bind_eq_bind, Option.some_bind, List.cons_append,
          List.nil_append, Option.some.injEq, List.cons.injEq, and_true]
        omega

theorem hexDigitChar_ne_underscore : ∀ n : Fin 16, hexDigitChar n.val ≠ '_' := by decide

theorem hexDigitChar_ne_underscore' {n : Nat} (h : n < 16) : hexDigitChar n ≠ '_' :=
  hexDigitChar_ne_underscore ⟨n, h⟩

theorem underscore_not_mem_hexEncode (bs : List Nat) : '_' ∉ hexEncodeBytes bs := by
  intro hmem
  simp only [hexEncodeBytes, List.mem_flatMap] at hmem
  obtain ⟨b, _, hc⟩ := hmem
  simp only [List.mem_cons, List.not_mem_nil, or_false] at hc
  rcases hc with h | h
  · exact hexDigitChar_ne_underscore' (by omega) h.symm
  · exact hexDigitChar_ne_underscore' (by omega) h.symm

theorem charOfNat_toNat (c : Char) : Char.ofNat c.toNat = c := by
  have hv : c.toNat.isValidChar := c.valid
  apply Char.eq_of_val_eq
  simp only [Char.ofNat, hv, dif_pos]
  rfl

theorem char_toNat_valid (c : Char) :
    c.toNat < 0xd800 ∨ (0xdfff < c.toNat ∧ c.toNat < 0x110000) := c.valid

theorem utf8EncodeChar_lt_256 (c : Char) : ∀ b ∈ utf8EncodeChar c, b < 256 := by
  have hv := char_toNat_valid c
  intro b hb
  simp only [utf8EncodeChar] at hb
  split at hb <;> [skip; split at hb] <;> [skip; skip; split at hb] <;>
    simp only [List.mem_cons, List.not_mem_nil, or_false] at hb <;> omega

theorem utf8DecodeBytes_one (b0 : Nat) (bs : List Nat) (h : b0 < 0x80) :
    utf8DecodeBytes (b0 :: bs) = (utf8DecodeBytes bs).map (fun cs => Char.ofNat b0 :: cs) := by
  match bs with
  | [] => simp [utf8DecodeBytes, h]
  | [b1] => simp [utf8DecodeBytes, h]
  | [b1, b2] => simp [utf8DecodeBytes, h]
  | b1 :: b2 :: b3 :: tl => simp only [utf8DecodeBytes, if_pos h]

theorem utf8DecodeBytes_two (b0 b1 : Nat) (bs : List Nat) (hA : ¬ b0 < 0x80) (hB : b0 < 0xE0)
    (h : utf8Cond2 b0 b1) :
    utf8DecodeBytes (b0 :: b1 :: bs)
      = (utf8DecodeBytes bs).map (fun cs => Char.ofNat (utf8Val2 b0 b1) :: cs) := by
  match bs with
  | [] =>
    simp only [utf8DecodeBytes, if_neg hA, if_pos hB, if_pos h]
    rfl
  | [b2] => simp only [utf8DecodeBytes, if_neg hA, if_pos hB, if_pos h]
  | b2 :: b3 :: tl => simp only [utf8DecodeBytes, if_neg hA, if_pos hB, if_pos h]

theorem utf8DecodeBytes_three (b0 b1 b2 : Nat) (bs : List Nat)
    (hA : ¬ b0 < 0x80) (hB : ¬ b0 < 0xE0) (hC : b0 < 0xF0) (h : utf8Cond3 b0 b1 b2) :
    utf8DecodeBytes (b0 :: b1 :: b2 :: bs)
      = (utf8DecodeBytes bs).map (fun cs => Char.ofNat (utf8Val3 b0 b1 b2) :: cs) := by
  match bs with
  | [] =>
    simp only [utf8DecodeBytes, if_neg hA, if_neg hB, if_pos hC, if_pos h]
    rfl
  | b3 :: tl => simp only [utf8DecodeBytes, if_neg hA, if_neg hB, if_pos hC, if_pos h]

theorem utf8DecodeBytes_four (b0 b1 b2 b3 : Nat) (bs : List Nat)
    (hA : ¬ b0 < 0x80) (hB : ¬ b0 < 0xE0) (hC : ¬ b0 < 0xF0) (hD : b0 < 0xF8)
    (h : utf8Cond4 b0 b1 b2 b3) :
    utf8DecodeBytes (b0 :: b1 :: b2 :: b3 :: bs)
      = (utf8DecodeBytes bs).map (fun cs => Char.ofNat (utf8Val4 b0 b1 b2 b3) :: cs) := by
  simp only [utf8DecodeBytes, if_neg hA, if_neg hB, if_neg hC, if_pos hD, if_pos h]

theorem utf8DecodeBytes_encodeChar (c : Char) (bs : List Nat) :
    utf8DecodeBytes (utf8EncodeChar c ++ bs)
      = (utf8DecodeBytes bs).map (fun cs => c :: cs) := by
  have hv := char_toNat_valid c
  by_cases h1 : c.toNat < 0x80
  · rw [utf8EncodeChar, if_pos h1]
    simp only [List.cons_append, List.nil_append]
    rw [utf8DecodeBytes_one _ _ h1]
    simp only [charOfNat_toNat]
  by_cases h2 : c.toNat < 0x800
  · rw [utf8EncodeChar, if_neg h1, if_pos h2]
    simp only [List.cons_append, List.nil_append]
    rw [utf8DecodeBytes_two _ _ _ (by omega) (by omega) ⟨by omega, by omega, by omega⟩]
    have harg : utf8Val2 (0xC0 + c.toNat / 64) (0x80 + c.toNat % 64) = c.toNat := by
      simp only [utf8Val2]
      omega
    simp only [harg, charOfNat_toNat]
  by_cases h3 : c.toNat < 0x10000
  · rw [utf8EncodeChar, if_neg h1, if_neg h2, if_pos h3]
    simp only [List.cons_append, List.nil_append]
    have harg : utf8Val3 (0xE0 + c.toNat / 4096) (0x80 + c.toNat / 64 % 64)
        (0x80 + c.toNat % 64) = c.toNat := by
      simp only [utf8Val3]
      omega
    rw [utf8DecodeBytes_three _ _ _ _ (by omega) (by omega) (by omega)
      ⟨by omega, by omega, by omega, by omega, by rw [harg]; omega, by rw [harg]; omega⟩]
    simp only [harg, charOfNat_toNat]
  · rw [utf8EncodeChar, if_neg h1, if_neg h2, if_neg h3]
    simp only [List.cons_append, List.nil_append]
    have harg : utf8Val4 (0xF0 + c.toNat / 262144) (0x80 + c.toNat / 4096 % 64)
        (0x80 + c.toNat / 64 % 64) (0x80 + c.toNat % 64) = c.toNat := by
      simp only [utf8Val4]
      omega
    rw [utf8DecodeBytes_four _ _ _ _ _ (by omega) (by omega) (by omega) (by omega)
      ⟨by omega, by omega, by omega, by omega, by omega, by omega,
        by rw [harg]; omega, by rw [harg]; omega⟩]
    simp only [harg, charOfNat_toNat]

theorem utf8_roundtrip (cs : List Char) :
    utf8DecodeBytes (utf8Encode cs) = some cs := by
  induction cs with
  | nil => rfl
  | cons c rest ih =>
    simp only [utf8Encode, List.flatMap_cons] at *
    rw [utf8DecodeBytes_encodeChar, ih]
    rfl

theorem utf8Encode_lt_256 (cs : List Char) : ∀ b ∈ utf8Encode cs, b < 256 := by
  intro b hb
  simp only [utf8Encode, List.mem_flatMap] at hb
  obtain ⟨c, _, hc⟩ := hb
  exact utf8EncodeChar_lt_256 c b hc

/-- Claim C2 (amended): for every identity key whose url-safe base64
encoding contains no underscore, extracting the identity key from a freshly
generated credential recovers it exactly — the credential being the fixed
`blz` tag, the base64 of the email and the hex-encoded random secret joined
by underscores.  The restriction is forced: the url-safe alphabet itself
contains `_`, and the extractor splits on `_` demanding exactly three parts
(see the counterexample). -/
theorem extract_generate_roundtrip (name email : String) (secret : List Nat)
    (hund : '_' ∉ b64EncodeBytes (utf8Encode email.data)) :
    extract_email_from_api_key (generate_api_key name email secret) = some email := by
  have hblz : ('_' : Char) ∉ "blz".data := by decide
  have hsplit : splitChar '_' ("blz".data ++
      ('_' :: (b64EncodeBytes (utf8Encode email.data) ++ ('_' :: hexEncodeBytes secret))))
      = ["blz".data, b64EncodeBytes (utf8Encode email.data), hexEncodeBytes secret] := by
    rw [splitChar_append_sep hblz, splitChar_append_sep hund,
      splitChar_no_sep (underscore_not_mem_hexEncode secret)]
  simp only [extract_email_from_api_key, generate_api_key, hsplit]
  rw [if_pos (by exact ⟨rfl, rfl⟩)]
  have hget : (["blz".data, b64EncodeBytes (utf8Encode email.data),
      hexEncodeBytes secret].getD 1 []) = b64EncodeBytes (utf8Encode email.data) := rfl
  rw [hget, b64_roundtrip _ (utf8Encode_lt_256 email.data), Option.some_bind,
    utf8_roundtrip email.data]
  rfl

/-! ## Association-list and service-machine lemmas -/

theorem assocLookup_mem {K V : Type} [DecidableEq K] {k : K} {v : V} :
    ∀ {m : List (K × V)}, assocLookup k m = some v → (k, v) ∈ m := by
  intro m
  induction m with
  | nil => intro h; simp [assocLookup] at h
  | cons p rest ih =>
    intro h
    obtain ⟨k', v'⟩ := p
    simp only [assocLookup] at h
    by_cases hk : k' = k
    · rw [if_pos hk] at h
      subst hk
      simp only [Option.some.injEq] at h
      subst h
      exact List.mem_cons_self _ _
    · rw [if_neg hk] at h
      exact List.mem_cons_of_mem _ (ih h)

theorem assocLookup_filter_ne {K V : Type} [DecidableEq K] {k k' : K} (h : k ≠ k') :
    ∀ (m : List (K × V)),
      assocLookup k (m.filter (fun p => p.1 ≠ k')) = assocLookup k m := by
  intro m
  induction m with
  | nil => rfl
  | cons p rest ih =>
    obtain ⟨k0, v0⟩ := p
    simp only [List.filter_cons]
    by_cases hk0 : k0 = k'
    · rw [if_neg (by simp [hk0])]
      rw [ih]
      have hne : ¬ (k0 = k) := fun hc => h (hc.symm.trans hk0)
      rw [assocLookup, if_neg hne]
    · rw [if_pos (by simp [hk0])]
      simp only [assocLookup]
      by_cases hk : k0 = k
      · rw [if_pos hk, if_pos hk]
      · rw [if_neg hk, if_neg hk, ih]

theorem assocLookup_insert_self {K V : Type} [DecidableEq K] (k : K) (v : V)
    (m : List (K × V)) : assocLookup k (assocInsert k v m).2 = some v := by
  simp [assocInsert, assocLookup]

theorem assocLookup_insert_ne {K V : Type} [DecidableEq K] {k k' : K} (h : k ≠ k')
    (v : V) (m : List (K × V)) :
    assocLookup k (assocInsert k' v m).2 = assocLookup k m := by
  simp only [assocInsert]
  rw [assocLookup, if_neg (fun hc : k' = k => h hc.symm)]
  exact assocLookup_filter_ne h m

theorem mem_assocInsert {K V : Type} [DecidableEq K] {p : K × V} {k : K} {v : V}
    {m : List (K × V)} (h : p ∈ (assocInsert k v m).2) : p = (k, v) ∨ p ∈ m := by
  simp only [assocInsert, List.mem_cons] at h
  rcases h with h | h
  · exact Or.inl h
  · exact Or.inr (List.mem_of_mem_filter h)

theorem service_inv_init (kdf : String → String) : service_inv kdf service_init := by
  intro p hp
  simp [service_init, DataStore.new] at hp

theorem service_inv_step (kdf h : String → String) (s : ServiceState) (op : ServiceOp)
    (hinv : service_inv kdf s) : service_inv kdf (service_step kdf h s op) := by
  cases op with
  | register username email =>
    simp only [service_step]
    split
    · exact hinv
    split
    · exact hinv
    · intro p hp
      simp only [DataStore.insert_mem] at hp
      rcases mem_assocInsert hp with rfl | hp'
      · exact ⟨rfl, fun hne => absurd rfl hne⟩
      · exact hinv p hp'
  | requestOtp email otp now email_sent =>
    simp only [service_step]
    split
    · exact hinv
    split
    · exact hinv
    split
    · exact hinv
    split
    · split
      · exact fun p hp => hinv p hp
      · exact fun p hp => hinv p hp
    · exact hinv
  | verifyOtp email otp now key_hash key_pref key_ts =>
    simp only [service_step]
    split
    · exact hinv
    split
    · exact hinv
    split
    · exact fun p hp => hinv p hp
    split
    · exact hinv
    split
    · exact fun p hp => hinv p hp
    · rename_i u hu
      intro p hp
      simp only [DataStore.insert_mem] at hp
      rcases mem_assocInsert hp with rfl | hp'
      · have hmem := assocLookup_mem (v := u) hu
        have hemail : u.email = email := (hinv _ hmem).1
        refine ⟨hemail, fun _ => ?_⟩
        simp only [hemail]
      · exact hinv p hp'
  | cleanup now => exact fun p hp => hinv p hp
  | periodicSave => exact fun p hp => hinv p hp

theorem service_step_keeps_instance (kdf h : String → String) (s : ServiceState)
    (op : ServiceOp) (e : String) (u : User) (hinv : service_inv kdf s)
    (hu : s.users.get e = some u) :
    ∃ u', (service_step kdf h s op).users.get e = some u' ∧
      (u.instance_id ≠ "" → u'.instance_id = u.instance_id) := by
  cases op with
  | register username email =>
    simp only [service_step]
    split
    · exact ⟨u, hu, fun _ => rfl⟩
    split
    · exact ⟨u, hu, fun _ => rfl⟩
    · rename_i hnone
      have hne : e ≠ email := by
        intro hc
        subst hc
        rw [DataStore.get] at hu
        simp [DataStore.get, hu] at hnone
      refine ⟨u, ?_, fun _ => rfl⟩
      simp only [DataStore.insert_mem, DataStore.get]
      rw [assocLookup_insert_ne hne]
      exact hu
  | requestOtp email otp now email_sent =>
    simp only [service_step]
    split
    · exact ⟨u, hu, fun _ => rfl⟩
    split
    · exact ⟨u, hu, fun _ => rfl⟩
    split
    · exact ⟨u, hu, fun _ => rfl⟩
    split
    · split
      · exact ⟨u, hu, fun _ => rfl⟩
      · exact ⟨u, hu, fun _ => rfl⟩
    · exact ⟨u, hu, fun _ => rfl⟩
  | verifyOtp email otp now key_hash key_pref key_ts =>
    simp only [service_step]
    split
    · exact ⟨u, hu, fun _ => rfl⟩
    split
    · exact ⟨u, hu, fun _ => rfl⟩
    split
    · exact ⟨u, hu, fun _ => rfl⟩
    split
    · exact ⟨u, hu, fun _ => rfl⟩
    split
    · exact ⟨u, hu, fun _ => rfl⟩
    · rename_i u0 hu0
      by_cases he : e = email
      · subst he
        have huu : u0 = u := by
          rw [hu0] at hu
          exact Option.some.injEq _ _ ▸ hu
        subst huu
        refine ⟨{ u0 with is_verified := true, instance_id := get_unique_instance_id kdf u0.email, api_key := u0.api_key ++ [{ user_name := u0.username, user_email := u0.email, api_key_hash := key_hash, key_pref := key_pref, is_revoked := false, created_at := key_ts }] }, ?_, ?_⟩
        · simp only [DataStore.insert_mem, DataStore.get]
          exact assocLookup_insert_self _ _ _
        · intro hne
          have hmem := assocLookup_mem (v := u0) hu0
          obtain ⟨hemail, hiid⟩ := hinv _ hmem
          rw [show u0.email = e from hemail]
          exact (show u0.instance_id = get_unique_instance_id kdf e from hiid hne).symm
      · refine ⟨u, ?_, fun _ => rfl⟩
        simp only [DataStore.insert_mem, DataStore.get]
        rw [assocLookup_insert_ne he]
        exact hu
  | cleanup now => exact ⟨u, hu, fun _ => rfl⟩
  | periodicSave => exact ⟨u, hu, fun _ => rfl⟩

theorem service_inv_run (kdf h : String → String) (s : ServiceState)
    (ops : List ServiceOp) (hinv : service_inv kdf s) :
    service_inv kdf (service_run kdf h s ops) := by
  induction ops generalizing s with
  | nil => exact hinv
  | cons op rest ih => exact ih _ (service_inv_step kdf h s op hinv)

theorem service_run_keeps_instance (kdf h : String → String) (s : ServiceState)
    (ops : List ServiceOp) (e : String) (u : User) (hinv : service_inv kdf s)
    (hu : s.users.get e = some u) :
    ∃ u', (service_run kdf h s ops).users.get e = some u' ∧
      (u.instance_id ≠ "" → u'.instance_id = u.instance_id) := by
  induction ops generalizing s u with
  | nil => exact ⟨u, hu, fun _ => rfl⟩
  | cons op rest ih =>
    obtain ⟨u1, hu1, hiid1⟩ := service_step_keeps_instance kdf h s op e u hinv hu
    obtain ⟨u2, hu2, hiid2⟩ := ih _ u1 (service_inv_step kdf h s op hinv) hu1
    refine ⟨u2, hu2, fun hne => ?_⟩
    rw [hiid2 (by rw [hiid1 hne]; exact hne), hiid1 hne]

/-! ## LRU / verify lemmas -/

theorem lru_get_put (c : LruCacheM) (k : String) (v : CachedUser) :
    (lru_get (lru_put c k v) k).1 = some v := by
  simp only [lru_put, lru_get]
  rw [show (1024 : Nat) = 1023 + 1 from rfl, List.take_succ_cons]
  rw [List.find?_cons_of_pos _ (by simp)]

theorem lru_get_found {c : LruCacheM} {k : String} {v : CachedUser} {c' : LruCacheM}
    (h : lru_get c k = (some v, c')) : (lru_get c' k).1 = some v := by
  simp only [lru_get] at h
  cases hf : c.entries.find? (fun p => p.1 = k) with
  | none =>
    rw [hf] at h
    simp at h
  | some p =>
    rw [hf] at h
    have hk : p.1 = k := by simpa using List.find?_some hf
    simp only [Prod.mk.injEq, Option.some.injEq] at h
    obtain ⟨hv, hc⟩ := h
    rw [← hc]
    simp only [lru_get]
    rw [List.find?_cons_of_pos _ (by simp [hk])]
    simp [hv]

theorem verify_api_key_ok_front {st : ProxyState} {h e : String} {u : CachedUser}
    {st' : ProxyState} (hr : verify_api_key st h e = (Except.ok u, st')) :
    (lru_get st'.user_cache h).1 = some u := by
  unfold verify_api_key at hr
  cases hlg : lru_get st.user_cache h with
  | mk oc c' =>
    rw [hlg] at hr
    cases oc with
    | some cached =>
      simp only [Prod.mk.injEq, Except.ok.injEq] at hr
      obtain ⟨hcu, hst⟩ := hr
      have hfound := lru_get_found hlg
      rw [← hst]
      rw [hcu] at hfound
      exact hfound
    | none =>
      cases hlv : load_and_verify st.user_store h e with
      | error err =>
        rw [hlv] at hr
        simp at hr
      | ok cu =>
        rw [hlv] at hr
        simp only [Prod.mk.injEq, Except.ok.injEq] at hr
        obtain ⟨hcu, hst⟩ := hr
        rw [← hst]
        rw [← hcu]
        exact lru_get_put st.user_cache h cu

theorem load_and_verify_error_eq {store : DataStore String User} {h e : String}
    {err : ProxyError} (hr : load_and_verify store h e = Except.error err) :
    err = ProxyError.InvalidApiKey := by
  cases hg : store.get e with
  | none =>
    simp only [load_and_verify, hg] at hr
    simp only [Except.error.injEq] at hr
    exact hr.symm
  | some user =>
    simp only [load_and_verify, hg] at hr
    by_cases hv : user.api_key.any (fun k => !k.is_revoked && k.api_key_hash == h) = true
    · rw [if_pos hv] at hr
      exact absurd hr (by simp)
    · rw [if_neg hv] at hr
      simp only [Except.error.injEq] at hr
      exact hr.symm

theorem load_and_verify_invalid_iff (store : DataStore String User) (h e : String) :
    load_and_verify store h e = Except.error ProxyError.InvalidApiKey ↔
      ¬ ∃ user k, store.get e = some user ∧ k ∈ user.api_key ∧
        k.is_revoked = false ∧ k.api_key_hash = h := by
  cases hg : store.get e with
  | none =>
    simp [load_and_verify, hg]
  | some user =>
    by_cases hv : user.api_key.any (fun k => !k.is_revoked && k.api_key_hash == h) = true
    · have hstep : load_and_verify store h e = Except.ok { email := user.email, username := user.username, instance_id := user.instance_id, is_verified := user.is_verified } := by
        simp only [load_and_verify, hg]
        rw [if_pos hv]
      rw [hstep]
      simp only [reduceCtorEq, false_iff, not_not]
      rcases List.any_eq_true.mp hv with ⟨k, hk, hpred⟩
      simp only [Bool.and_eq_true, Bool.not_eq_true', beq_iff_eq] at hpred
      exact ⟨user, k, rfl, hk, hpred.1, hpred.2⟩
    · have hstep : load_and_verify store h e = Except.error ProxyError.InvalidApiKey := by
        simp only [load_and_verify, hg]
        rw [if_neg hv]
      rw [hstep]
      simp only [true_iff]
      rintro ⟨user', k, hget, hk, hrev, hhash⟩
      have huser : user' = user := by
        simp only [Option.some.injEq] at hget
        exact hget.symm
      subst huser
      exact hv (List.any_eq_true.mpr ⟨k, hk, by simp [hrev, hhash]⟩)

theorem sum_map_mod_65536 : ∀ (l : List Char),
    (l.map (fun c => c.toNat % 65536)).sum % 65536 = (l.map Char.toNat).sum % 65536 := by
  intro l
  induction l with
  | nil => rfl
  | cons c rest ih =>
    simp only [List.map_cons, List.sum_cons]
    omega

/-- Claim C9 (amended): for every instance-id string the derived port lies in
[50000, 59999] and is stable across calls; it equals the fixed base 50000
plus the sum of the first 8 characters' code points reduced modulo 2^16
(the `u16` truncating cast and wrapping addition), then modulo 10000 — not
the plain sum modulo 10000 of the claim, which differs once the 16-bit
arithmetic wraps (see the counterexample). -/
theorem calculate_container_port_range_formula (instance_id : String) :
    50000 ≤ calculate_container_port instance_id ∧
    calculate_container_port instance_id ≤ 59999 ∧
    calculate_container_port instance_id = calculate_container_port instance_id ∧
    calculate_container_port instance_id
      = 50000 + ((instance_id.data.take 8).map Char.toNat).sum % 65536 % 10000 := by
  refine ⟨?_, ?_, rfl, ?_⟩
  · simp only [calculate_container_port]
    omega
  · simp only [calculate_container_port]
    have := Nat.mod_lt ((instance_id.data.take 8).foldl
      (fun acc c => (acc + c.toNat % 65536) % 65536) 0) (show 0 < 10000 by omega)
    omega
  · simp only [calculate_container_port]
    rw [foldl_wrap_eq_sum_mod _ 0 (by omega)]
    rw [Nat.zero_add, sum_map_mod_65536]

/-- Claim C9, original form, refuted: at the single-character string U+10000
the code yields port 50000 (the`as u16` cast truncates the code point to 0),
while the claimed formula base + (sum of code points) % 10000 yields 55536. -/
theorem calculate_container_port_formula_counterexample :
    calculate_container_port (String.mk [Char.ofNat 65536])
      ≠ 50000 + (((String.mk [Char.ofNat 65536]).data.take 8).map Char.toNat).sum % 10000 := by
  decide

/-- Claim C5 (amended): whenever `spawn_blazedb_container` creates a new
container (it did not already exist), the submitted configuration carries an
unless-stopped restart policy — not the always-restart policy of the claim. -/
theorem spawn_new_container_restart_policy (network_mode instance_id : String)
    (cfg : ContainerCreateBodySpec)
    (hc : (spawn_blazedb_container false network_mode instance_id).2
      = SpawnAction.createAndStart cfg) :
    cfg.host_config.restart_policy = some RestartPolicyName.unlessStopped := by
  simp only [spawn_blazedb_container, Bool.false_eq_true, if_false,
    SpawnAction.createAndStart.injEq] at hc
  rw [← hc]
  rfl

/-- Claim C5, original form, refuted: the configuration submitted for a
fresh container has restart policy UNLESS_STOPPED, which is not ALWAYS
(container.rs:140-143). -/
theorem spawn_new_container_restart_policy_counterexample :
    (spawn_blazedb_container false "bridge" "a").2
      = SpawnAction.createAndStart (blazedb_container_config "a" "bridge") ∧
    (blazedb_container_config "a" "bridge").host_config.restart_policy
      ≠ some RestartPolicyName.always := by
  exact ⟨rfl, by decide⟩

/-- Witness for the amended C5 claim at a concrete instance id. -/
theorem spawn_new_container_restart_policy_witness :
    (blazedb_container_config "x" "bridge").host_config.restart_policy
      = some RestartPolicyName.unlessStopped :=
  spawn_new_container_restart_policy "bridge" "x" (blazedb_container_config "x" "bridge") rfl

/-- Claim C1: for every request whose credential authenticates successfully
as some tenant (the handler's authentication prefix — blocked-endpoint
check, path parsing, credential and identity-key extraction, hashing and
`verify_api_key` — returns that tenant's identity), if the tenant's own
instance id differs from the path-embedded instance id then the router
answers `Forbidden` and nothing is forwarded upstream. -/
theorem proxy_handler_forbidden_on_mismatch (hash_api_key : String → String)
    (mode : Bool) (st : ProxyState) (req : Request) (u : CachedUser)
    (instance_id : String) (st' : ProxyState)
    (hauth : proxy_auth hash_api_key st req = (Except.ok (u, instance_id), st'))
    (hmis : u.instance_id ≠ instance_id) :
    proxy_handler hash_api_key mode st req = (Except.error ProxyError.Forbidden, st') ∧
    ∀ out st'', proxy_handler hash_api_key mode st req ≠ (Except.ok out, st'') := by
  have hh : proxy_handler hash_api_key mode st req
      = (Except.error ProxyError.Forbidden, st') := by
    simp only [proxy_handler, hauth]
    rw [if_pos hmis]
  refine ⟨hh, fun out st'' hc => ?_⟩
  rw [hh] at hc
  simp at hc

/-- Claim C6: whenever `forward_request` accepts a request, the outbound
request carries no authorization header under any casing, its remaining
headers are exactly the inbound headers minus the authorization entries (in
order), and the method, body and target URL pass through unchanged. -/
theorem forward_request_strips_authorization (url : String) (m : Method)
    (hs : List (String × String)) (b : List Nat) (out : OutboundRequest)
    (hf : forward_request url m hs b = Except.ok out) :
    (∀ p ∈ out.headers, str_lower p.1 ≠ "authorization") ∧
    out.headers = hs.filter (fun p => str_lower p.1 ≠ "authorization") ∧
    out.method = m ∧ out.body.getD [] = b ∧ out.url = url := by
  have e1 : str_lower "Authorization" = "authorization" := rfl
  have e2 : str_lower "authorization" = "authorization" := rfl
  cases m <;> simp only [forward_request, hm_remove, e1, e2] at hf <;>
    [skip; skip; skip; skip; exact absurd hf (by simp)] <;>
    [skip; skip; skip; skip] <;>
  · simp only [Except.ok.injEq] at hf
    subst hf
    refine ⟨?_, ?_, rfl, ?_, rfl⟩
    · intro p hp
      simpa using (List.mem_filter.mp (List.mem_filter.mp hp).1).2
    · rw [List.filter_filter]
      exact List.filter_congr (fun a _ => Bool.and_self _)
    · cases b <;> simp

/-- Claim C10: the credential extractor answers the distinct
missing-credential error when there is no authorization header; with a
header value starting with "Bearer " it takes the second
whitespace-separated token (failing as invalid when there is none),
otherwise the whole value; in both cases the candidate is accepted exactly
when it starts with the fixed tag "blz_", and every accepted credential
starts with that tag. -/
theorem extract_api_key_spec (headers : List (String × String)) :
    (hm_get headers "Authorization" = none →
      extract_api_key headers = Except.error ProxyError.MissingApiKey) ∧
    (∀ v, hm_get headers "Authorization" = some v →
      (str_starts_with v "Bearer " = true → (rust_split_whitespace v).get? 1 = none →
        extract_api_key headers = Except.error ProxyError.InvalidApiKey) ∧
      ∀ t, (if str_starts_with v "Bearer " then (rust_split_whitespace v).get? 1
          else some v) = some t →
        (str_starts_with t "blz_" = true → extract_api_key headers = Except.ok t) ∧
        (str_starts_with t "blz_" = false →
          extract_api_key headers = Except.error ProxyError.InvalidApiKey)) ∧
    (∀ k, extract_api_key headers = Except.ok k → str_starts_with k "blz_" = true) := by
  refine ⟨?_, ?_, ?_⟩
  · intro hnone
    simp only [extract_api_key, hnone]
  · intro v hv
    constructor
    · intro hb hn
      simp only [extract_api_key, hv, hb, if_true, hn]
    · intro t ht
      constructor
      · intro hblz
        simp only [extract_api_key, hv, ht, hblz, if_true]
      · intro hblz
        simp only [extract_api_key, hv, ht, hblz, Bool.false_eq_true, if_false]
  · intro k hk
    cases hv : hm_get headers "Authorization" with
    | none =>
      simp only [extract_api_key, hv] at hk
      exact absurd hk (by simp)
    | some v =>
      simp only [extract_api_key, hv] at hk
      cases ht : (if str_starts_with v "Bearer " then (rust_split_whitespace v).get? 1
          else some v) with
      | none =>
        simp only [ht] at hk
        exact absurd hk (by simp)
      | some t =>
        simp only [ht] at hk
        by_cases hblz : str_starts_with t "blz_" = true
        · rw [if_pos hblz] at hk
          simp only [Except.ok.injEq] at hk
          rw [← hk]
          exact hblz
        · rw [if_neg hblz] at hk
          exact absurd hk (by simp)

/-- Claim C3: after a `verify_api_key` call succeeds and populates the
cache, a second call with the same credential hash returns the same cached
identity for every possible store contents — in particular the stale,
pre-mutation identity when the tenant record has changed in between — so it
performs no store read. -/
theorem verify_api_key_cache_hit_stale (st : ProxyState) (h e : String)
    (u : CachedUser) (st1 : ProxyState)
    (hfirst : verify_api_key st h e = (Except.ok u, st1))
    (store' : DataStore String User) :
    (verify_api_key { user_cache := st1.user_cache, user_store := store' } h e).1
      = Except.ok u := by
  have hfront := verify_api_key_ok_front hfirst
  cases hlg : lru_get st1.user_cache h with
  | mk oc c' =>
    rw [hlg] at hfront
    simp only at hfront
    subst hfront
    simp only [verify_api_key]
    rw [show lru_get ({ user_cache := st1.user_cache, user_store := store' } :
      ProxyState).user_cache h = (some u, c') from hlg]

/-- Claim C4: on a cache miss, verification fails with the invalid-credential
error — leaving the cache untouched — precisely when no non-revoked stored
credential record of the tenant looked up under the embedded identity key
has the presented hash; this covers tenant absent, hash absent, and all
matching credentials revoked. -/
theorem verify_api_key_miss_invalid_iff (st : ProxyState) (h e : String)
    (hmiss : (lru_get st.user_cache h).1 = none) :
    verify_api_key st h e = (Except.error ProxyError.InvalidApiKey, st) ↔
      ¬ ∃ user k, st.user_store.get e = some user ∧ k ∈ user.api_key ∧
        k.is_revoked = false ∧ k.api_key_hash = h := by
  cases hlg : lru_get st.user_cache h with
  | mk oc c' =>
    rw [hlg] at hmiss
    simp only at hmiss
    subst hmiss
    rw [← load_and_verify_invalid_iff st.user_store h e]
    simp only [verify_api_key, hlg]
    cases hlv : load_and_verify st.user_store h e with
    | error err =>
      have herr := load_and_verify_error_eq hlv
      subst herr
      simp
    | ok cu =>
      simp

/-- Claim C7: an insert followed by a get on the same key returns the
inserted value, a durable insert leaves the backing file holding exactly the
in-memory map, and reopening a store from a backing file that holds its map
yields a store whose every lookup agrees with the original — so all
previously durably-inserted pairs survive reopening. -/
theorem datastore_roundtrip_persistence {K V : Type} [DecidableEq K]
    (s : DataStore K V) (k : K) (v : V) :
    ((s.insert k v).2.get k = some v ∧
      (s.insert k v).2.file = some (s.insert k v).2.data) ∧
    (∀ t : DataStore K V, t.file = some t.data →
      ∀ k', DataStore.get (DataStore.new t.file) k' = t.get k') := by
  refine ⟨⟨?_, rfl⟩, ?_⟩
  · simp only [DataStore.insert, DataStore.save_to_disk, DataStore.get]
    exact assocLookup_insert_self k v s.data
  · intro t ht k'
    rw [ht]
    simp only [DataStore.new, DataStore.get, Option.getD_some]

/-- Claim C8: in every state reachable by the registration / verification
operations from a fresh deployment, a tenant record's instance identifier,
once set (non-empty), equals the deterministic derivation from its identity
key, and no further sequence of operations changes it (re-derivation for the
same tenant reproduces the identical identifier). -/
theorem service_instance_id_immutable (kdf hash_otp : String → String)
    (ops1 ops2 : List ServiceOp) (e : String) (u : User)
    (hu : (service_run kdf hash_otp service_init ops1).users.get e = some u)
    (hne : u.instance_id ≠ "") :
    u.instance_id = get_unique_instance_id kdf e ∧
    ∃ u', (service_run kdf hash_otp
        (service_run kdf hash_otp service_init ops1) ops2).users.get e = some u' ∧
      u'.instance_id = u.instance_id := by
  have hinv := service_inv_run kdf hash_otp service_init ops1 (service_inv_init kdf)
  have hmem := assocLookup_mem
    (show assocLookup e (service_run kdf hash_otp service_init ops1).users.data
      = some u from hu)
  obtain ⟨hemail, hiid⟩ := hinv _ hmem
  constructor
  · exact show u.instance_id = get_unique_instance_id kdf e from hiid hne
  · obtain ⟨u', h1, h2⟩ := service_run_keeps_instance kdf hash_otp _ ops2 e u hinv hu
    exact ⟨u', h1, h2 hne⟩

/-- Claim C2, original form, refuted: the email "ab?" encodes to the
url-safe base64 "YWI_", whose underscore makes the generated credential
split into four parts, so extraction returns none instead of the email. -/
theorem extract_generate_counterexample :
    extract_email_from_api_key (generate_api_key "n" "ab?" [0]) ≠ some "ab?" := by
  decide

/-- Witness for the amended C2 claim at a concrete email and secret. -/
theorem extract_generate_roundtrip_witness :
    ('_' ∉ b64EncodeBytes (utf8Encode "hi".data)) ∧
    extract_email_from_api_key (generate_api_key "n" "hi" [171]) = some "hi" :=
  ⟨by decide, extract_generate_roundtrip "n" "hi" [171] (by decide)⟩

/-- Witness for C1: a valid credential of tenant `iidA` presented against a
path embedding `iidB` authenticates but is answered with Forbidden. -/
theorem proxy_handler_forbidden_on_mismatch_witness :
    proxy_auth (fun s => s) st_w req_w = (Except.ok (cached_w, "iidB"), st_w1) ∧
    cached_w.instance_id ≠ "iidB" ∧
    proxy_handler (fun s => s) false st_w req_w
      = (Except.error ProxyError.Forbidden, st_w1) :=
  ⟨by decide, by decide,
    (proxy_handler_forbidden_on_mismatch (fun s => s) false st_w req_w cached_w "iidB"
      st_w1 (by decide) (by decide)).1⟩

/-- Witness for C3: after a first successful verification, a second
verification with the same hash returns the cached identity even against an
emptied store. -/
theorem verify_api_key_cache_hit_stale_witness :
    verify_api_key st_w "blz_YUBiLmM_00" "a@b.c" = (Except.ok cached_w, st_w1) ∧
    (verify_api_key { user_cache := st_w1.user_cache, user_store := DataStore.new none }
      "blz_YUBiLmM_00" "a@b.c").1 = Except.ok cached_w :=
  ⟨by decide,
    verify_api_key_cache_hit_stale st_w "blz_YUBiLmM_00" "a@b.c" cached_w st_w1
      (by decide) (DataStore.new none)⟩

/-- Witness for C4 at a concrete cache miss. -/
theorem verify_api_key_miss_invalid_iff_witness :
    ((lru_get st_rev_w.user_cache "h2").1 = none) ∧
    (verify_api_key st_rev_w "h2" "b@b.c" = (Except.error ProxyError.InvalidApiKey, st_rev_w) ↔
      ¬ ∃ user k, st_rev_w.user_store.get "b@b.c" = some user ∧ k ∈ user.api_key ∧
        k.is_revoked = false ∧ k.api_key_hash = "h2") :=
  ⟨by decide, verify_api_key_miss_invalid_iff st_rev_w "h2" "b@b.c" (by decide)⟩

/-- Witness for C6 at a concrete request carrying an authorization header. -/
theorem forward_request_strips_authorization_witness :
    forward_request "u" Method.GET [("Authorization", "x"), ("content-type", "json")] [1, 2]
      = Except.ok out_w ∧
    ((∀ p ∈ out_w.headers, str_lower p.1 ≠ "authorization") ∧
      out_w.headers = ([("Authorization", "x"), ("content-type", "json")].filter
        (fun p => str_lower p.1 ≠ "authorization")) ∧
      out_w.method = Method.GET ∧ out_w.body.getD [] = [1, 2] ∧ out_w.url = "u") :=
  ⟨by decide,
    forward_request_strips_authorization "u" Method.GET
      [("Authorization", "x"), ("content-type", "json")] [1, 2] out_w (by decide)⟩

/-- Witness for C7: insert-then-get returns the value, and reopening from
the backing file preserves the lookup. -/
theorem datastore_roundtrip_persistence_witness :
    (ds_w1.get "k" = some "v") ∧
    (DataStore.get (DataStore.new ds_w1.file) "k" = ds_w1.get "k") :=
  ⟨(datastore_roundtrip_persistence ds_w "k" "v").1.1,
    (datastore_roundtrip_persistence ds_w "k" "v").2 ds_w1 (by decide) "k"⟩

/-- Witness for C8: a concrete register / request-OTP / verify-OTP run
assigns the derived instance id, and a further operation leaves it equal. -/
theorem service_instance_id_immutable_witness :
    ((service_run (fun s => s) (fun s => s) service_init ops_w1).users.get "a@b"
      = some user_v_w) ∧
    (user_v_w.instance_id = get_unique_instance_id (fun s => s) "a@b" ∧
      ∃ u', (service_run (fun s => s) (fun s => s)
          (service_run (fun s => s) (fun s => s) service_init ops_w1)
          [ServiceOp.register "bob" "a@b"]).users.get "a@b" = some u' ∧
        u'.instance_id = user_v_w.instance_id) :=
  ⟨by decide,
    service_instance_id_immutable (fun s => s) (fun s => s) ops_w1
      [ServiceOp.register "bob" "a@b"] "a@b" user_v_w (by decide) (by decide)⟩

/-- Witness for C10 at a concrete header list with a Bearer-prefixed value. -/
theorem extract_api_key_spec_witness :
    (hm_get [("authorization", "Bearer blz_tok")] "Authorization" = some "Bearer blz_tok") ∧
    extract_api_key [("authorization", "Bearer blz_tok")] = Except.ok "blz_tok" :=
  ⟨by decide,
    (((extract_api_key_spec [("authorization", "Bearer blz_tok")]).2.1 "Bearer blz_tok"
      (by decide)).2 "blz_tok" (by decide)).1 (by decide)⟩

end Blaze


